import Mathlib

/-!
Shallow embedding of the protocol session core of `CodexAppServerClient`
(src/unnamed/part_000): JSON-RPC message classification, the pending-request
table, the turn registry with its notification handlers, and the
server-request reply policy.

JavaScript `Map` objects (the pending table and the turn registry) are
embedded as association lists keyed by `String`; `Map.set` replaces the value
of an existing key in place and otherwise appends, `Map.delete` removes the
unique entry for a key, matching the helpers below when the key list is
duplicate-free (which `Map` guarantees; theorems carry a `NodupKeys`
hypothesis where the proof needs it).  Promise `resolve`/`reject` callbacks
stored in those maps are embedded as emitted effect values (`TurnEff`,
`PendEff`): invoking the callback corresponds to the handler returning the
effect.  Optional / possibly-absent JavaScript fields are `Option`s; a field
whose runtime type is checked (`typeof x === "string"`) is `Option String`
with `none` standing for absent-or-non-string.
-/

namespace OpenClaw.Codex

/-- Lookup in an association list, as `Map.get`: the value at the first entry
whose key matches, if any. -/
def getKey (k : String) : List (String × α) → Option α
  | [] => none
  | (k', v) :: rest => if k' = k then some v else getKey k rest

/-- Deletion from an association list, as `Map.delete`: removes the first
entry whose key matches. -/
def delKey (k : String) : List (String × α) → List (String × α)
  | [] => []
  | (k', v) :: rest => if k' = k then rest else (k', v) :: delKey k rest

/-- Update of an association list, as `Map.set`: replaces the value at the
first entry whose key matches, else appends a new entry. -/
def setKey (k : String) (v : α) : List (String × α) → List (String × α)
  | [] => [(k, v)]
  | (k', v') :: rest => if k' = k then (k, v) :: rest else (k', v') :: setKey k v rest

/-- The keys of an association list. -/
def keys (m : List (String × α)) : List String := m.map Prod.fst

/-- A `Map` invariant: every key occurs at most once. -/
def NodupKeys (m : List (String × α)) : Prop := (keys m).Nodup

/-- JavaScript string truthiness for an optional string field: `!x` is true
exactly when the field is absent or the empty string. -/
def truthy : Option String → Bool
  | none => false
  | some s => !s.isEmpty

/-- JSON-RPC ids are integers or strings (`type JsonRpcId = number | string`). -/
inductive JsonRpcId where
  | num (n : Int)
  | str (s : String)
deriving Repr, DecidableEq

/-- Embedding of `normalizeId`: numeric ids are stringified, string ids kept. -/
def normalizeId : JsonRpcId → String
  | .num n => toString n
  | .str s => s

/-- The field-presence shape of a decoded JSON-RPC message, carrying exactly
what the classification predicates test with the `in` operator. -/
structure MsgShape where
  hasId : Bool
  hasMethod : Bool
  hasResult : Bool
  hasError : Bool
deriving Repr, DecidableEq

/-- Embedding of `isRpcRequest`: has `id` and `method`, lacks `result` and
`error`. -/
def isRpcRequest (m : MsgShape) : Bool :=
  m.hasId && m.hasMethod && !m.hasResult && !m.hasError

/-- Embedding of `isRpcResponse`: has `id`, and has `result` or `error`. -/
def isRpcResponse (m : MsgShape) : Bool :=
  m.hasId && (m.hasResult || m.hasError)

/-- Embedding of `isRpcNotification`: lacks `id` and has `method`. -/
def isRpcNotification (m : MsgShape) : Bool :=
  !m.hasId && m.hasMethod

/-- A message shape is valid when it is the shape of one of the three wire
variants: a Request (`{id, method, params}`), a Notification
(`{method, params}`), or a Response (`{id, result|error}` carrying at least
one of `result`/`error`). -/
def validMessage (m : MsgShape) : Bool :=
  (m.hasId && m.hasMethod && !m.hasResult && !m.hasError) ||
  (!m.hasId && m.hasMethod && !m.hasResult && !m.hasError) ||
  (m.hasId && !m.hasMethod && (m.hasResult || m.hasError))

/-- The `error` member of a Response: `{code, message, data?}`; the message is
kept optional because `toError` guards it with `?.` and `??`. -/
structure RpcError where
  code : Int
  message : Option String
deriving Repr, DecidableEq

/-- A Response routed to the pending table: its id and its optional `result`
and `error` members, with the result type abstract. -/
structure RpcResponse (V : Type) where
  id : JsonRpcId
  result : Option V
  error : Option RpcError
deriving Repr

/-- Embedding of `toError`: the error message of a Response, falling back to
the generic message when the error object or its message is absent. -/
def toError (r : RpcResponse V) : String :=
  (r.error.bind RpcError.message).getD "Unknown JSON-RPC error"

/-- Invoking a pending-table completion callback: resolution with the
(possibly absent) `result` value, or rejection with an error message. -/
inductive PendEff (V : Type) where
  | resolve (key : String) (v : Option V)
  | reject (key : String) (msg : String)
deriving Repr

/-- The key (normalized request id) a pending-table effect targets. -/
def pendEffKey : PendEff V → String
  | .resolve k _ => k
  | .reject k _ => k

/-- The pending table, abstracted to its set of keys (the stored values are
the callbacks, which the embedding turns into effects). -/
abbrev PendingTable : Type := List String

/-- Embedding of the Response branch of `handleMessage`: look up the pending
entry for the normalized id; if none, discard the Response; otherwise delete
the entry and reject with `toError` when an `error` member is present, else
resolve with the `result` member. -/
def handleResponse (st : PendingTable) (r : RpcResponse V) :
    PendingTable × List (PendEff V) :=
  let key := normalizeId r.id
  if key ∈ st then
    match r.error with
    | some _ => (List.erase st key, [.reject key (toError r)])
    | none => (List.erase st key, [.resolve key r.result])
  else (st, [])

/-- Processing a stream of inbound Responses in arrival order, collecting the
completion effects. -/
def processResponses (st : PendingTable) :
    List (RpcResponse V) → PendingTable × List (PendEff V)
  | [] => (st, [])
  | r :: rest =>
    let step := handleResponse st r
    let tail := processResponses step.1 rest
    (tail.1, step.2 ++ tail.2)

/-- Number of completion effects targeting a given key. -/
def effCount (key : String) (effs : List (PendEff V)) : Nat :=
  effs.countP (fun e => pendEffKey e == key)

/-- Outcome of `sendRequest` as observed by the caller: the request was
written and the caller suspends, or the write threw inside the promise
executor and the caller's awaited value is rejected with that error. -/
inductive SendOutcome where
  | written
  | rejected (msg : String)
deriving Repr, DecidableEq

/-- Adding a key to the pending table, as `Map.set` on the key set. -/
def tableSet (k : String) (st : PendingTable) : PendingTable :=
  if k ∈ st then st else st ++ [k]

/-- Embedding of `sendRequest` composed with `writeMessage`: allocate the next
id, record the pending entry keyed by the stringified id, then write; when the
child process or its input stream is absent (`childOk = false`) the write
throws "codex app-server not running" inside the promise executor, rejecting
the caller — after the pending entry was already recorded. -/
def sendRequest (childOk : Bool) (nextId : Int) (st : PendingTable) :
    PendingTable × Int × SendOutcome :=
  let key := toString nextId
  let st' := tableSet key st
  if childOk then (st', nextId + 1, .written)
  else (st', nextId + 1, .rejected "codex app-server not running")

/-- Terminal status field of a `CodexTurnResult`. -/
inductive TurnStatus where
  | completed
  | failed
  | interrupted
deriving Repr, DecidableEq

/-- Embedding of `CodexTurnResult`: the collaborator-facing result of a turn. -/
structure CodexTurnResult where
  status : TurnStatus
  outputText : Option String := none
  error : Option String := none
deriving Repr, DecidableEq

/-- Embedding of `TurnTracker` (sans the two callbacks, which become effects):
aggregation state for one in-flight turn.  `hasTimeout` records whether a
timeout timer was armed at creation. -/
structure TurnTracker where
  threadId : String
  turnId : String
  lastAgentText : String
  lastNonEmptyText : String
  itemTexts : List (String × String)
  hasTimeout : Bool
deriving Repr, DecidableEq

/-- The turn registry `this.turns`: a map from turnId to tracker. -/
abbrev Registry : Type := List (String × TurnTracker)

/-- Invoking a turn tracker's completion callback: `resolve` with a turn
result or `reject` with an error message. -/
inductive TurnEff where
  | resolve (turnId : String) (r : CodexTurnResult)
  | reject (turnId : String) (msg : String)
deriving Repr, DecidableEq

/-- Parameters of an `item/agentMessage/delta` notification, as the handler
reads them; `delta` is `none` when the field is absent or not a string. -/
structure DeltaPayload where
  threadId : Option String := none
  turnId : Option String := none
  itemId : Option String := none
  delta : Option String := none
deriving Repr, DecidableEq

/-- The `item` member of an `item/completed` notification; `text` is `none`
when absent or not a string. -/
structure ItemInfo where
  type : Option String := none
  id : Option String := none
  text : Option String := none
deriving Repr, DecidableEq

/-- Parameters of an `item/completed` notification. -/
structure ItemCompletedPayload where
  threadId : Option String := none
  turnId : Option String := none
  item : Option ItemInfo := none
deriving Repr, DecidableEq

/-- The `turn.error` member of a `turn/completed` notification. -/
structure TurnErrorInfo where
  message : Option String := none
deriving Repr, DecidableEq

/-- The `turn` member of a `turn/completed` notification. -/
structure TurnInfo where
  id : Option String := none
  status : Option String := none
  error : Option TurnErrorInfo := none
deriving Repr, DecidableEq

/-- Parameters of a `turn/completed` notification. -/
structure TurnCompletedPayload where
  threadId : Option String := none
  turn : Option TurnInfo := none
deriving Repr, DecidableEq

/-- Whitespace test backing `jsTrim`: the ASCII whitespace characters. -/
def isJsWhitespace (c : Char) : Bool :=
  c = ' ' || c = '\t' || c = '\n' || c = '\r'

/-- Model of JavaScript `String.prototype.trim` (restricted to ASCII
whitespace): drops leading and trailing whitespace characters. -/
def jsTrim (s : String) : String :=
  String.mk
    (((s.data.dropWhile isJsWhitespace).reverse.dropWhile isJsWhitespace).reverse)

/-- Embedding of the `item/agentMessage/delta` branch of `handleNotification`:
require a truthy `turnId`, a truthy `itemId` and a string `delta`; require a
tracker for the turnId; append the delta to the per-item accumulated text,
set last-seen-agent-text to the new accumulated text, and when its trim is
non-empty set last-non-empty-trimmed-text to the trim.  Emits no effect. -/
def handleDelta (p : DeltaPayload) (turns : Registry) : Registry :=
  if !truthy p.turnId || !truthy p.itemId || p.delta = none then turns
  else
    match p.turnId, p.itemId, p.delta with
    | some tid, some iid, some d =>
      match getKey tid turns with
      | none => turns
      | some tr =>
        let existing := (getKey iid tr.itemTexts).getD ""
        let next := existing ++ d
        let tr' : TurnTracker :=
          { tr with
            itemTexts := setKey iid next tr.itemTexts
            lastAgentText := next
            lastNonEmptyText :=
              if (jsTrim next).isEmpty then tr.lastNonEmptyText else jsTrim next }
        setKey tid tr' turns
    | _, _, _ => turns

/-- Embedding of the `item/completed` branch of `handleNotification`: require
a truthy `turnId`, a present `item` whose `type` is exactly `"agentMessage"`,
and a tracker for the turnId; take the item's final text (empty when absent
or not a string); when the item has a truthy id, overwrite the per-item text
for that id; set last-seen-agent-text to the final text and, when its trim is
non-empty, last-non-empty-trimmed-text to the trim.  Emits no effect. -/
def handleItemCompleted (p : ItemCompletedPayload) (turns : Registry) : Registry :=
  if !truthy p.turnId || p.item = none ||
      (p.item.bind ItemInfo.type) ≠ some "agentMessage" then turns
  else
    match p.turnId, p.item with
    | some tid, some item =>
      match getKey tid turns with
      | none => turns
      | some tr =>
        let text := item.text.getD ""
        let tr' : TurnTracker :=
          { tr with
            itemTexts :=
              if truthy item.id then setKey (item.id.getD "") text tr.itemTexts
              else tr.itemTexts
            lastAgentText := text
            lastNonEmptyText :=
              if (jsTrim text).isEmpty then tr.lastNonEmptyText else jsTrim text }
        setKey tid tr' turns
    | _, _ => turns

/-- Embedding of the `turn/completed` branch of `handleNotification`: require
a truthy `turn.id` and a tracker for it; delete the tracker (clearing any
timeout timer), then resolve — never reject — the tracker's caller: status
"completed" or "interrupted" produce that status with the tracker's
last-non-empty-trimmed-text, any other status produces "failed" with the
turn's error message or the default "codex turn failed". -/
def handleTurnCompleted (p : TurnCompletedPayload) (turns : Registry) :
    Registry × List TurnEff :=
  if !truthy (p.turn.bind TurnInfo.id) then (turns, [])
  else
    match p.turn.bind TurnInfo.id with
    | none => (turns, [])
    | some tid =>
      match getKey tid turns with
      | none => (turns, [])
      | some tr =>
        let turns' := delKey tid turns
        let status := p.turn.bind TurnInfo.status
        if status = some "completed" then
          (turns', [.resolve tid
            { status := .completed, outputText := some tr.lastNonEmptyText }])
        else if status = some "interrupted" then
          (turns', [.resolve tid
            { status := .interrupted, outputText := some tr.lastNonEmptyText }])
        else
          let errorMessage :=
            ((p.turn.bind TurnInfo.error).bind TurnErrorInfo.message).getD
              "codex turn failed"
          (turns', [.resolve tid
            { status := .failed, error := some errorMessage,
              outputText := some tr.lastNonEmptyText }])

/-- Embedding of `trackTurn`'s registry update: create a fresh tracker for the
turn (empty texts, empty item map), arming the timeout timer exactly when a
positive `timeoutMs` was supplied, and register it under the turnId. -/
def trackTurn (threadId turnId : String) (timeoutMs : Option Int)
    (turns : Registry) : Registry :=
  let tracker : TurnTracker :=
    { threadId := threadId
      turnId := turnId
      lastAgentText := ""
      lastNonEmptyText := ""
      itemTexts := []
      hasTimeout := match timeoutMs with | some t => decide (0 < t) | none => false }
  setKey turnId tracker turns

/-- Embedding of the timeout timer callback installed by `trackTurn`: delete
the tracker from the registry and reject the caller with the timeout error. -/
def fireTimeout (turnId : String) (turns : Registry) : Registry × List TurnEff :=
  (delKey turnId turns, [.reject turnId "codex turn timeout"])

/-- Embedding of the tail of `runTurn`, after the `turn/start` Response
arrived: read `turn.id` from the Response; when absent or empty, throw
"codex app-server turn/start missing turn id" leaving the registry untouched;
otherwise register a tracker via `trackTurn` and await it.  Returns the
resulting registry together with the thrown error or the tracked turnId. -/
def runTurnAfterStart (respTurnId : Option String) (threadId : String)
    (timeoutMs : Option Int) (turns : Registry) :
    Registry × Except String String :=
  if !truthy respTurnId then
    (turns, .error "codex app-server turn/start missing turn id")
  else
    match respTurnId with
    | some tid => (trackTurn threadId tid timeoutMs turns, .ok tid)
    | none => (turns, .error "codex app-server turn/start missing turn id")

/-- Reply sent by `handleServerRequest`: a result object of one of the three
fixed shapes, or a JSON-RPC error. -/
inductive ServerReply where
  | decision (d : String)
  | answers
  | toolOutput (output : String) (success : Bool)
  | rpcError (code : Int) (message : String)
deriving Repr, DecidableEq

/-- Embedding of `handleServerRequest`: the fixed reply policy, keyed by the
inbound request's method, with approvals governed by the `autoApprove`
option. -/
def handleServerRequest (autoApprove : Bool) (method : String) : ServerReply :=
  if method = "item/commandExecution/requestApproval" then
    .decision (if autoApprove then "accept" else "decline")
  else if method = "item/fileChange/requestApproval" then
    .decision (if autoApprove then "accept" else "decline")
  else if method = "item/tool/requestUserInput" then
    .answers
  else if method = "item/tool/call" then
    .toolOutput "clawd does not support dynamic tool calls" false
  else if method = "account/chatgptAuthTokens/refresh" then
    .rpcError (-32601) "auth token refresh unsupported"
  else
    .rpcError (-32601) ("unsupported request: " ++ method)

/-- Applying a sequence of `item/agentMessage/delta` notifications for one
turn and one item, in arrival order. -/
def applyDeltas (tid iid : String) (ds : List String) (turns : Registry) :
    Registry :=
  ds.foldl
    (fun ts d =>
      handleDelta { turnId := some tid, itemId := some iid, delta := some d } ts)
    turns

/-- Concatenation of a list of strings in order, used to state
order-preservation of delta accumulation. -/
def concatAll : List String → String
  | [] => ""
  | d :: ds => d ++ concatAll ds

theorem getKey_setKey_self (k : String) (v : α) :
    ∀ m : List (String × α), getKey k (setKey k v m) = some v
  | [] => by simp [setKey, getKey]
  | (k', v') :: rest => by
    by_cases h : k' = k
    · simp [setKey, getKey, h]
    · simp [setKey, getKey, h, getKey_setKey_self k v rest]

theorem getKey_setKey_ne (k k0 : String) (v : α) (h : k0 ≠ k) :
    ∀ m : List (String × α), getKey k (setKey k0 v m) = getKey k m
  | [] => by simp [setKey, getKey, h]
  | (k', v') :: rest => by
    by_cases h' : k' = k0
    · simp [setKey, getKey, h', h]
    · simp only [setKey, getKey, if_neg h']
      by_cases h'' : k' = k
      · simp [getKey, h'']
      · simp [getKey, h'', getKey_setKey_ne k k0 v h rest]

theorem keys_cons (k' : String) (v' : α) (rest : List (String × α)) :
    keys ((k', v') :: rest) = k' :: keys rest := rfl

theorem nodupKeys_cons {k' : String} {v' : α} {rest : List (String × α)} :
    NodupKeys ((k', v') :: rest) ↔ k' ∉ keys rest ∧ NodupKeys rest := by
  simp [NodupKeys, keys_cons, List.nodup_cons]

theorem mem_keys_setKey (x k : String) (v : α) :
    ∀ m : List (String × α), x ∈ keys (setKey k v m) → x = k ∨ x ∈ keys m
  | [] => by simp [setKey, keys]
  | (k', v') :: rest => by
    by_cases h : k' = k
    · simp [setKey, keys, h]
    · simp only [setKey, if_neg h, keys_cons, List.mem_cons]
      intro hx
      rcases hx with hx | hx
      · exact Or.inr (Or.inl hx)
      · rcases mem_keys_setKey x k v rest hx with hx' | hx'
        · exact Or.inl hx'
        · exact Or.inr (Or.inr hx')

theorem nodupKeys_setKey (k : String) (v : α) :
    ∀ m : List (String × α), NodupKeys m → NodupKeys (setKey k v m)
  | [], _ => by simp [setKey, NodupKeys, keys]
  | (k', v') :: rest, hm => by
    have hk' : k' ∉ keys rest := (nodupKeys_cons.mp hm).1
    have hrest : NodupKeys rest := (nodupKeys_cons.mp hm).2
    by_cases h : k' = k
    · subst h
      simpa [setKey, nodupKeys_cons] using ⟨hk', hrest⟩
    · have ih := nodupKeys_setKey k v rest hrest
      have hk'' : k' ∉ keys (setKey k v rest) := by
        intro hmem
        rcases mem_keys_setKey k' k v rest hmem with h' | h'
        · exact h h'
        · exact hk' h'
      simpa [setKey, if_neg h, nodupKeys_cons] using ⟨hk'', ih⟩

theorem getKey_none_of_not_mem (k : String) :
    ∀ m : List (String × α), k ∉ keys m → getKey k m = none
  | [], _ => rfl
  | (k', v') :: rest, h => by
    have hne : k' ≠ k := by
      intro hk
      exact h (by simp [keys, hk])
    have hrest : k ∉ keys rest := fun hx => h (by simp [keys] at hx ⊢; tauto)
    simp [getKey, hne, getKey_none_of_not_mem k rest hrest]

theorem getKey_delKey_self (k : String) :
    ∀ m : List (String × α), NodupKeys m → getKey k (delKey k m) = none
  | [], _ => rfl
  | (k', v') :: rest, hm => by
    have hk' : k' ∉ keys rest := (nodupKeys_cons.mp hm).1
    have hrest : NodupKeys rest := (nodupKeys_cons.mp hm).2
    by_cases h : k' = k
    · subst h
      simp [delKey, getKey_none_of_not_mem k' rest hk']
    · simp [delKey, h, getKey, getKey_delKey_self k rest hrest]

theorem handleDelta_no_tracker {p : DeltaPayload} {turns : Registry} {tid : String}
    (hp : p.turnId = some tid) (h : getKey tid turns = none) :
    handleDelta p turns = turns := by
  obtain ⟨pth, ptid, piid, pd⟩ := p
  simp only at hp
  subst hp
  cases piid with
  | none => simp [handleDelta, truthy]
  | some iid =>
    cases pd with
    | none => simp [handleDelta]
    | some d =>
      by_cases htid : tid.isEmpty
      · simp [handleDelta, truthy, htid]
      · by_cases hiid : iid.isEmpty
        · simp [handleDelta, truthy, htid, hiid]
        · simp [handleDelta, truthy, htid, hiid, h]

theorem handleItemCompleted_no_tracker {p : ItemCompletedPayload} {turns : Registry}
    {tid : String} (hp : p.turnId = some tid) (h : getKey tid turns = none) :
    handleItemCompleted p turns = turns := by
  obtain ⟨pth, ptid, pitem⟩ := p
  simp only at hp
  subst hp
  cases pitem with
  | none => simp [handleItemCompleted]
  | some item =>
    by_cases htid : tid.isEmpty
    · simp [handleItemCompleted, truthy, htid]
    · by_cases hty : item.type = some "agentMessage"
      · simp [handleItemCompleted, truthy, htid, hty, h]
      · simp [handleItemCompleted, truthy, htid, hty]

theorem handleTurnCompleted_no_tracker {p : TurnCompletedPayload} {turns : Registry}
    {tid : String} (hp : p.turn.bind TurnInfo.id = some tid)
    (h : getKey tid turns = none) :
    handleTurnCompleted p turns = (turns, []) := by
  by_cases htid : tid.isEmpty
  · simp [handleTurnCompleted, truthy, hp, htid]
  · simp [handleTurnCompleted, truthy, hp, htid, h]

theorem effCount_append (key : String) (l₁ l₂ : List (PendEff V)) :
    effCount key (l₁ ++ l₂) = effCount key l₁ + effCount key l₂ := by
  simp [effCount, List.countP_append]

theorem effCount_single_self (key : String) (e : PendEff V)
    (h : pendEffKey e = key) : effCount key [e] = 1 := by
  simp [effCount, List.countP, List.countP.go, h]

theorem effCount_single_ne (key : String) (e : PendEff V)
    (h : pendEffKey e ≠ key) : effCount key [e] = 0 := by
  have hb : (pendEffKey e == key) = false := beq_eq_false_iff_ne.mpr h
  simp [effCount, List.countP, List.countP.go, hb]

theorem handleResponse_count (key : String) (st : PendingTable) (r : RpcResponse V) :
    List.count key (handleResponse st r).1 + effCount key (handleResponse st r).2
      = List.count key st := by
  by_cases hmem : normalizeId r.id ∈ st
  · by_cases hkey : normalizeId r.id = key
    · have hpos : 0 < List.count key st := by
        rw [← hkey] at *
        exact List.count_pos_iff.mpr hmem
      cases herr : r.error with
      | some e =>
        simp only [handleResponse, if_pos hmem, herr]
        rw [hkey, List.count_erase_self,
          effCount_single_self key _ (by simp [pendEffKey, hkey])]
        omega
      | none =>
        simp only [handleResponse, if_pos hmem, herr]
        rw [hkey, List.count_erase_self,
          effCount_single_self key _ (by simp [pendEffKey, hkey])]
        omega
    · cases herr : r.error with
      | some e =>
        simp only [handleResponse, if_pos hmem, herr]
        rw [List.count_erase_of_ne (fun h => hkey h.symm),
          effCount_single_ne key _ (by simp [pendEffKey, hkey])]
        omega
      | none =>
        simp only [handleResponse, if_pos hmem, herr]
        rw [List.count_erase_of_ne (fun h => hkey h.symm),
          effCount_single_ne key _ (by simp [pendEffKey, hkey])]
        omega
  · simp [handleResponse, if_neg hmem, effCount]

theorem processResponses_count (key : String) :
    ∀ (rs : List (RpcResponse V)) (st : PendingTable),
      List.count key (processResponses st rs).1
        + effCount key (processResponses st rs).2 = List.count key st
  | [], st => by simp [processResponses, effCount]
  | r :: rest, st => by
    have hstep := handleResponse_count key st r
    have ih := processResponses_count key rest (handleResponse st r).1
    simp only [processResponses, effCount_append]
    omega

theorem processResponses_hits (key : String) :
    ∀ (rs : List (RpcResponse V)) (st : PendingTable),
      key ∈ st → (∃ r ∈ rs, normalizeId r.id = key) →
      1 ≤ effCount key (processResponses st rs).2
  | [], _, _, hex => by simp at hex
  | r :: rest, st, hmem, hex => by
    by_cases hkey : normalizeId r.id = key
    · have hone : effCount key (handleResponse st r).2 = 1 := by
        rw [← hkey] at hmem
        cases herr : r.error with
        | some e =>
          simp only [handleResponse, if_pos hmem, herr]
          exact effCount_single_self key _ (by simp [pendEffKey, hkey])
        | none =>
          simp only [handleResponse, if_pos hmem, herr]
          exact effCount_single_self key _ (by simp [pendEffKey, hkey])
      simp only [processResponses, effCount_append]
      omega
    · have hex' : ∃ r' ∈ rest, normalizeId r'.id = key := by
        rcases hex with ⟨r', hr', hid⟩
        rcases List.mem_cons.mp hr' with rfl | hr'
        · exact absurd hid hkey
        · exact ⟨r', hr', hid⟩
      have hmem' : key ∈ (handleResponse st r).1 := by
        by_cases hm : normalizeId r.id ∈ st
        · cases herr : r.error with
          | some e =>
            simp only [handleResponse, if_pos hm, herr]
            exact (List.mem_erase_of_ne (fun h => hkey h.symm)).mpr hmem
          | none =>
            simp only [handleResponse, if_pos hm, herr]
            exact (List.mem_erase_of_ne (fun h => hkey h.symm)).mpr hmem
        · simpa [handleResponse, if_neg hm] using hmem
      have ih := processResponses_hits key rest (handleResponse st r).1 hmem' hex'
      simp only [processResponses, effCount_append]
      omega

theorem applyDeltas_join (tid iid : String) (h1 : tid.isEmpty = false)
    (h2 : iid.isEmpty = false) :
    ∀ (ds : List String) (turns : Registry) (tr : TurnTracker),
      getKey tid turns = some tr →
      ∃ tr' : TurnTracker,
        getKey tid (applyDeltas tid iid ds turns) = some tr' ∧
        (getKey iid tr'.itemTexts).getD "" =
          ((getKey iid tr.itemTexts).getD "") ++ concatAll ds
  | [], turns, tr, htr => ⟨tr, by simpa [applyDeltas] using htr, by simp [concatAll]⟩
  | d :: ds, turns, tr, htr => by
    have hstep :
        handleDelta { turnId := some tid, itemId := some iid, delta := some d } turns
          = setKey tid
              { tr with
                itemTexts :=
                  setKey iid (((getKey iid tr.itemTexts).getD "") ++ d) tr.itemTexts
                lastAgentText := ((getKey iid tr.itemTexts).getD "") ++ d
                lastNonEmptyText :=
                  if (jsTrim (((getKey iid tr.itemTexts).getD "") ++ d)).isEmpty then
                    tr.lastNonEmptyText
                  else jsTrim (((getKey iid tr.itemTexts).getD "") ++ d) } turns := by
      simp [handleDelta, truthy, h1, h2, htr]
    have htr1 := getKey_setKey_self tid
      { tr with
        itemTexts := setKey iid (((getKey iid tr.itemTexts).getD "") ++ d) tr.itemTexts
        lastAgentText := ((getKey iid tr.itemTexts).getD "") ++ d
        lastNonEmptyText :=
          if (jsTrim (((getKey iid tr.itemTexts).getD "") ++ d)).isEmpty then
            tr.lastNonEmptyText
          else jsTrim (((getKey iid tr.itemTexts).getD "") ++ d) } turns
    rw [← hstep] at htr1
    obtain ⟨tr', hget, htext⟩ :=
      applyDeltas_join tid iid h1 h2 ds
        (handleDelta { turnId := some tid, itemId := some iid, delta := some d } turns)
        _ htr1
    refine ⟨tr', ?_, ?_⟩
    · simpa [applyDeltas, List.foldl] using hget
    · rw [htext]
      simp only [getKey_setKey_self, Option.getD_some, concatAll]
      rw [String.append_assoc]

/-- C9: the three message-classification predicates are mutually exclusive —
for every decoded message at most one of `isRpcResponse`, `isRpcRequest`,
`isRpcNotification` holds — and for every valid message exactly one of the
three holds. -/
theorem message_classification_exclusive_total (m : MsgShape) :
    (¬(isRpcResponse m = true ∧ isRpcRequest m = true)
      ∧ ¬(isRpcResponse m = true ∧ isRpcNotification m = true)
      ∧ ¬(isRpcRequest m = true ∧ isRpcNotification m = true))
    ∧ (validMessage m = true →
        (isRpcResponse m = true ∧ isRpcRequest m = false ∧ isRpcNotification m = false)
        ∨ (isRpcRequest m = true ∧ isRpcResponse m = false ∧ isRpcNotification m = false)
        ∨ (isRpcNotification m = true ∧ isRpcResponse m = false
            ∧ isRpcRequest m = false)) := by
  obtain ⟨i, mth, r, e⟩ := m
  cases i <;> cases mth <;> cases r <;> cases e <;> decide

/-- Witness for C9 at the shape of a request message. -/
theorem message_classification_exclusive_total_witness :
    (isRpcResponse ⟨true, true, false, false⟩ = true
        ∧ isRpcRequest ⟨true, true, false, false⟩ = false
        ∧ isRpcNotification ⟨true, true, false, false⟩ = false)
    ∨ (isRpcRequest ⟨true, true, false, false⟩ = true
        ∧ isRpcResponse ⟨true, true, false, false⟩ = false
        ∧ isRpcNotification ⟨true, true, false, false⟩ = false)
    ∨ (isRpcNotification ⟨true, true, false, false⟩ = true
        ∧ isRpcResponse ⟨true, true, false, false⟩ = false
        ∧ isRpcRequest ⟨true, true, false, false⟩ = false) :=
  (message_classification_exclusive_total ⟨true, true, false, false⟩).2 (by decide)

/-- C7: the server-request handler's fixed reply policy — approvals accept
under auto-approve and decline otherwise, user-input requests get empty
answers, tool calls get an unsupported-output result with success false,
auth-token refresh and every unrecognized method get a JSON-RPC error with
code -32601, the latter with message "unsupported request: <method>". -/
theorem server_request_reply_policy (autoApprove : Bool) (method : String) :
    handleServerRequest autoApprove "item/commandExecution/requestApproval"
        = .decision (if autoApprove then "accept" else "decline")
    ∧ handleServerRequest autoApprove "item/fileChange/requestApproval"
        = .decision (if autoApprove then "accept" else "decline")
    ∧ handleServerRequest autoApprove "item/tool/requestUserInput" = .answers
    ∧ handleServerRequest autoApprove "item/tool/call"
        = .toolOutput "clawd does not support dynamic tool calls" false
    ∧ handleServerRequest autoApprove "account/chatgptAuthTokens/refresh"
        = .rpcError (-32601) "auth token refresh unsupported"
    ∧ (method ≠ "item/commandExecution/requestApproval" →
       method ≠ "item/fileChange/requestApproval" →
       method ≠ "item/tool/requestUserInput" →
       method ≠ "item/tool/call" →
       method ≠ "account/chatgptAuthTokens/refresh" →
        handleServerRequest autoApprove method
          = .rpcError (-32601) ("unsupported request: " ++ method)) := by
  refine ⟨by simp [handleServerRequest], by simp [handleServerRequest],
    by simp [handleServerRequest], by simp [handleServerRequest],
    by simp [handleServerRequest], ?_⟩
  intro h1 h2 h3 h4 h5
  simp [handleServerRequest, h1, h2, h3, h4, h5]

/-- Witness for C7 at the unrecognized method "foo/bar" with auto-approve
disabled. -/
theorem server_request_reply_policy_witness :
    handleServerRequest false "foo/bar"
      = .rpcError (-32601) ("unsupported request: " ++ "foo/bar") :=
  (server_request_reply_policy false "foo/bar").2.2.2.2.2
    (by decide) (by decide) (by decide) (by decide) (by decide)

/-- C8: a `turn/start` Response whose `turn.id` is absent or empty makes the
run-turn call throw "codex app-server turn/start missing turn id" and leaves
the turn registry unchanged — no tracker is created. -/
theorem run_turn_missing_turn_id (respTurnId : Option String) (threadId : String)
    (timeoutMs : Option Int) (turns : Registry)
    (h : truthy respTurnId = false) :
    runTurnAfterStart respTurnId threadId timeoutMs turns
      = (turns, .error "codex app-server turn/start missing turn id") := by
  simp [runTurnAfterStart, h]

/-- Witness for C8 at an empty turn id. -/
theorem run_turn_missing_turn_id_witness :
    runTurnAfterStart (some "") "t1" none [("u0",
      { threadId := "t1", turnId := "u0", lastAgentText := "",
        lastNonEmptyText := "", itemTexts := [], hasTimeout := false })]
      = ([("u0",
          { threadId := "t1", turnId := "u0", lastAgentText := "",
            lastNonEmptyText := "", itemTexts := [], hasTimeout := false })],
         .error "codex app-server turn/start missing turn id") :=
  run_turn_missing_turn_id (some "") "t1" none _ (by decide)

/-- C10: sending a request while the child process or its input stream is
absent rejects the caller with "codex app-server not running", yet the
pending-table entry recorded for the request's id before the failed write is
still present in the table afterwards (and no other entry was removed): the
entry leaks. -/
theorem send_request_rejected_entry_leaks (nextId : Int) (st : PendingTable) :
    (sendRequest false nextId st).2.2
        = .rejected "codex app-server not running"
    ∧ toString nextId ∈ (sendRequest false nextId st).1
    ∧ ∀ k ∈ st, k ∈ (sendRequest false nextId st).1 := by
  refine ⟨rfl, ?_, ?_⟩
  · by_cases h : toString nextId ∈ st
    · simp [sendRequest, tableSet, h]
    · simp [sendRequest, tableSet, h]
  · intro k hk
    by_cases h : toString nextId ∈ st
    · simpa [sendRequest, tableSet, h] using hk
    · simp [sendRequest, tableSet, h, hk]

/-- Witness for C10: a failed write leaves both the freshly allocated entry
and a pre-existing entry in the pending table. -/
theorem send_request_rejected_entry_leaks_witness :
    (sendRequest false 1 ["0"]).2.2 = .rejected "codex app-server not running"
    ∧ toString (1 : Int) ∈ (sendRequest false 1 ["0"]).1
    ∧ "0" ∈ (sendRequest false 1 ["0"]).1 := by
  have h := send_request_rejected_entry_leaks 1 ["0"]
  exact ⟨h.1, h.2.1, h.2.2 "0" (by decide)⟩

/-- C1: handling a `turn/completed` notification whose turn id matches an
active tracker always resolves (never rejects) the caller: status "completed"
and "interrupted" yield that status with the tracker's
last-non-empty-trimmed-text, and any other status yields "failed" with the
turn's error message or the default "codex turn failed"; the tracker is
removed in every case. -/
theorem turn_completed_resolution (p : TurnCompletedPayload) (turns : Registry)
    (tid : String) (tr : TurnTracker)
    (hid : p.turn.bind TurnInfo.id = some tid) (hne : tid.isEmpty = false)
    (htr : getKey tid turns = some tr) :
    (p.turn.bind TurnInfo.status = some "completed" →
      handleTurnCompleted p turns
        = (delKey tid turns,
           [.resolve tid { status := .completed,
                           outputText := some tr.lastNonEmptyText }]))
    ∧ (p.turn.bind TurnInfo.status = some "interrupted" →
      handleTurnCompleted p turns
        = (delKey tid turns,
           [.resolve tid { status := .interrupted,
                           outputText := some tr.lastNonEmptyText }]))
    ∧ (p.turn.bind TurnInfo.status ≠ some "completed" →
       p.turn.bind TurnInfo.status ≠ some "interrupted" →
      handleTurnCompleted p turns
        = (delKey tid turns,
           [.resolve tid
             { status := .failed,
               outputText := some tr.lastNonEmptyText,
               error := some
                 (((p.turn.bind TurnInfo.error).bind TurnErrorInfo.message).getD
                   "codex turn failed") }])) := by
  refine ⟨?_, ?_, ?_⟩
  · intro hs
    simp [handleTurnCompleted, truthy, hid, hne, htr, hs]
  · intro hs
    simp [handleTurnCompleted, truthy, hid, hne, htr, hs]
  · intro hs1 hs2
    simp [handleTurnCompleted, truthy, hid, hne, htr, hs1, hs2]

/-- Witness for C1: a completed turn over a tracker that accumulated
"Hello world" resolves with that text. -/
theorem turn_completed_resolution_witness :
    handleTurnCompleted
        { turn := some { id := some "u1", status := some "completed" } }
        [("u1", { threadId := "t1", turnId := "u1",
                  lastAgentText := "Hello world",
                  lastNonEmptyText := "Hello world",
                  itemTexts := [("i1", "Hello world")], hasTimeout := false })]
      = ([], [.resolve "u1"
          { status := .completed, outputText := some "Hello world" }]) := by
  have h := (turn_completed_resolution
      { turn := some { id := some "u1", status := some "completed" } }
      [("u1", { threadId := "t1", turnId := "u1",
                lastAgentText := "Hello world",
                lastNonEmptyText := "Hello world",
                itemTexts := [("i1", "Hello world")], hasTimeout := false })]
      "u1"
      { threadId := "t1", turnId := "u1", lastAgentText := "Hello world",
        lastNonEmptyText := "Hello world",
        itemTexts := [("i1", "Hello world")], hasTimeout := false }
      rfl (by decide) (by decide)).1 rfl
  simpa [delKey] using h

/-- C5: over any interleaving of inbound Responses, a pending request whose
matching Response arrives is completed exactly once and its entry does not
survive in the table, while a Response matching no pending entry is discarded
without effect. -/
theorem pending_request_exactly_once (V : Type) (st : PendingTable)
    (rs : List (RpcResponse V)) (key : String)
    (hnd : st.Nodup) (hmem : key ∈ st)
    (hmatch : ∃ r ∈ rs, normalizeId r.id = key) :
    effCount key (processResponses st rs).2 = 1
    ∧ key ∉ (processResponses st rs).1
    ∧ ∀ r : RpcResponse V, normalizeId r.id ∉ st →
        handleResponse st r = (st, []) := by
  have hA := processResponses_count (V := V) key rs st
  have hB := processResponses_hits (V := V) key rs st hmem hmatch
  have hone : List.count key st = 1 := List.count_eq_one_of_mem hnd hmem
  refine ⟨by omega, ?_, ?_⟩
  · have hz : List.count key (processResponses st rs).1 = 0 := by omega
    exact List.count_eq_zero.mp hz
  · intro r hr
    simp [handleResponse, hr]

/-- Witness for C5: a single pending request completed by its matching
Response, and a Response with an unknown id discarded. -/
theorem pending_request_exactly_once_witness :
    effCount "9"
        (processResponses (V := Nat) ["9"]
          [{ id := .str "9", result := some 5, error := none }]).2 = 1
    ∧ "9" ∉ (processResponses (V := Nat) ["9"]
          [{ id := .str "9", result := some 5, error := none }]).1
    ∧ handleResponse (V := Nat) ["9"]
        { id := .str "8", result := some 5, error := none } = (["9"], []) := by
  have h := pending_request_exactly_once Nat ["9"]
    [{ id := .str "9", result := some 5, error := none }] "9"
    (by decide) (by decide)
    ⟨{ id := .str "9", result := some 5, error := none },
      List.mem_cons_self _ _, rfl⟩
  exact ⟨h.1, h.2.1, h.2.2 { id := .str "8", result := some 5, error := none }
    (by decide)⟩

/-- C6: a Response matching a pending request resolves the caller with
exactly its `result` value when no `error` member is present, and rejects
with the error's message (or the generic fallback when the message is
absent) when an `error` member is present. -/
theorem matched_response_resolution (V : Type) (st : PendingTable)
    (r : RpcResponse V) (hmem : normalizeId r.id ∈ st) :
    (∀ v : V, r.error = none → r.result = some v →
      handleResponse st r
        = (st.erase (normalizeId r.id),
           [.resolve (normalizeId r.id) (some v)]))
    ∧ (∀ e : RpcError, r.error = some e →
      handleResponse st r
        = (st.erase (normalizeId r.id),
           [.reject (normalizeId r.id)
             (e.message.getD "Unknown JSON-RPC error")])) := by
  constructor
  · intro v he hr
    simp [handleResponse, hmem, he, hr]
  · intro e he
    simp [handleResponse, toError, hmem, he]

/-- Witness for C6: a Response with a result resolves with that value; a
Response with a message-less error rejects with the generic message. -/
theorem matched_response_resolution_witness :
    handleResponse (V := Nat) ["7"]
        { id := .str "7", result := some 3, error := none }
      = (List.erase ["7"] "7", [.resolve "7" (some 3)])
    ∧ handleResponse (V := Nat) ["7"]
        { id := .str "7", result := none,
          error := some { code := -32000, message := none } }
      = (List.erase ["7"] "7", [.reject "7" "Unknown JSON-RPC error"]) := by
  constructor
  · exact (matched_response_resolution Nat ["7"]
      { id := .str "7", result := some 3, error := none } (by decide)).1 3 rfl rfl
  · exact (matched_response_resolution Nat ["7"]
      { id := .str "7", result := none,
        error := some { code := -32000, message := none } } (by decide)).2
      { code := -32000, message := none } rfl

/-- C2: a turn tracked with a positive timeout arms its timer; when the timer
fires the caller is rejected with "codex turn timeout" and the tracker is
removed from the registry, after which every `item/agentMessage/delta`,
`item/completed` and `turn/completed` notification carrying that turn id
finds no tracker and changes no state. -/
theorem turn_timeout_rejects_then_inert (turns : Registry)
    (threadId turnId : String) (t : Int)
    (hnd : NodupKeys turns) (ht : 0 < t) :
    ((getKey turnId (trackTurn threadId turnId (some t) turns)).map
        TurnTracker.hasTimeout = some true)
    ∧ (fireTimeout turnId (trackTurn threadId turnId (some t) turns)).2
        = [.reject turnId "codex turn timeout"]
    ∧ getKey turnId
        (fireTimeout turnId (trackTurn threadId turnId (some t) turns)).1 = none
    ∧ (∀ p : DeltaPayload, p.turnId = some turnId →
        handleDelta p
            (fireTimeout turnId (trackTurn threadId turnId (some t) turns)).1
          = (fireTimeout turnId (trackTurn threadId turnId (some t) turns)).1)
    ∧ (∀ p : ItemCompletedPayload, p.turnId = some turnId →
        handleItemCompleted p
            (fireTimeout turnId (trackTurn threadId turnId (some t) turns)).1
          = (fireTimeout turnId (trackTurn threadId turnId (some t) turns)).1)
    ∧ (∀ p : TurnCompletedPayload, p.turn.bind TurnInfo.id = some turnId →
        handleTurnCompleted p
            (fireTimeout turnId (trackTurn threadId turnId (some t) turns)).1
          = ((fireTimeout turnId (trackTurn threadId turnId (some t) turns)).1,
             [])) := by
  have hnd1 : NodupKeys (trackTurn threadId turnId (some t) turns) :=
    nodupKeys_setKey _ _ _ hnd
  have hgone : getKey turnId
      (fireTimeout turnId (trackTurn threadId turnId (some t) turns)).1 = none := by
    simpa [fireTimeout] using
      getKey_delKey_self turnId (trackTurn threadId turnId (some t) turns) hnd1
  refine ⟨?_, rfl, hgone, ?_, ?_, ?_⟩
  · simp [trackTurn, getKey_setKey_self, ht]
  · intro p hp
    exact handleDelta_no_tracker hp hgone
  · intro p hp
    exact handleItemCompleted_no_tracker hp hgone
  · intro p hp
    exact handleTurnCompleted_no_tracker hp hgone

/-- Witness for C2: a turn with a 50 ms timeout fired — the caller gets the
timeout rejection, the tracker is gone, and a late delta and a late
`turn/completed` for that turn id are inert. -/
theorem turn_timeout_rejects_then_inert_witness :
    (fireTimeout "u1" (trackTurn "t1" "u1" (some 50) [])).2
        = [.reject "u1" "codex turn timeout"]
    ∧ getKey "u1" (fireTimeout "u1" (trackTurn "t1" "u1" (some 50) [])).1 = none
    ∧ handleDelta { turnId := some "u1", itemId := some "i1", delta := some "x" }
        (fireTimeout "u1" (trackTurn "t1" "u1" (some 50) [])).1
        = (fireTimeout "u1" (trackTurn "t1" "u1" (some 50) [])).1
    ∧ handleTurnCompleted
        { turn := some { id := some "u1", status := some "completed" } }
        (fireTimeout "u1" (trackTurn "t1" "u1" (some 50) [])).1
        = ((fireTimeout "u1" (trackTurn "t1" "u1" (some 50) [])).1, []) := by
  have h := turn_timeout_rejects_then_inert [] "t1" "u1" 50
    (by simp [NodupKeys, keys]) (by decide)
  exact ⟨h.2.1, h.2.2.1, h.2.2.2.1 _ rfl, h.2.2.2.2.2 _ rfl⟩

/-- C3: delta accumulation appends in arrival order — one delta extends the
per-item text by exactly that delta, updates last-seen-agent-text to the new
accumulated text and last-non-empty-trimmed-text to its trim when non-empty;
a sequence of deltas on one item accumulates their in-order concatenation,
and the deltas "Hel", "lo ", "world" on a fresh item yield "Hello world". -/
theorem delta_accumulation_order (turns : Registry) (tid iid d : String)
    (tr : TurnTracker) (h1 : tid.isEmpty = false) (h2 : iid.isEmpty = false)
    (htr : getKey tid turns = some tr) :
    (∃ tr' : TurnTracker,
      getKey tid
          (handleDelta { turnId := some tid, itemId := some iid, delta := some d }
            turns)
        = some tr'
      ∧ getKey iid tr'.itemTexts
          = some (((getKey iid tr.itemTexts).getD "") ++ d)
      ∧ tr'.lastAgentText = ((getKey iid tr.itemTexts).getD "") ++ d
      ∧ tr'.lastNonEmptyText =
          (if (jsTrim (((getKey iid tr.itemTexts).getD "") ++ d)).isEmpty
           then tr.lastNonEmptyText
           else jsTrim (((getKey iid tr.itemTexts).getD "") ++ d)))
    ∧ (∀ ds : List String, ∃ tr' : TurnTracker,
        getKey tid (applyDeltas tid iid ds turns) = some tr'
        ∧ (getKey iid tr'.itemTexts).getD ""
            = ((getKey iid tr.itemTexts).getD "") ++ concatAll ds)
    ∧ applyDeltas "u1" "i1" ["Hel", "lo ", "world"]
        [("u1", { threadId := "t1", turnId := "u1", lastAgentText := "",
                  lastNonEmptyText := "", itemTexts := [], hasTimeout := false })]
        = [("u1", { threadId := "t1", turnId := "u1",
                    lastAgentText := "Hello world",
                    lastNonEmptyText := "Hello world",
                    itemTexts := [("i1", "Hello world")],
                    hasTimeout := false })] := by
  refine ⟨?_, ?_, by decide⟩
  · have hstep :
        handleDelta { turnId := some tid, itemId := some iid, delta := some d }
            turns
          = setKey tid
              { tr with
                itemTexts :=
                  setKey iid (((getKey iid tr.itemTexts).getD "") ++ d)
                    tr.itemTexts
                lastAgentText := ((getKey iid tr.itemTexts).getD "") ++ d
                lastNonEmptyText :=
                  if (jsTrim (((getKey iid tr.itemTexts).getD "") ++ d)).isEmpty then
                    tr.lastNonEmptyText
                  else jsTrim (((getKey iid tr.itemTexts).getD "") ++ d) } turns := by
      simp [handleDelta, truthy, h1, h2, htr]
    refine ⟨{ tr with
        itemTexts :=
          setKey iid (((getKey iid tr.itemTexts).getD "") ++ d) tr.itemTexts
        lastAgentText := ((getKey iid tr.itemTexts).getD "") ++ d
        lastNonEmptyText :=
          if (jsTrim (((getKey iid tr.itemTexts).getD "") ++ d)).isEmpty then
            tr.lastNonEmptyText
          else jsTrim (((getKey iid tr.itemTexts).getD "") ++ d) }, ?_, ?_, rfl, rfl⟩
    · rw [hstep]
      exact getKey_setKey_self tid _ turns
    · exact getKey_setKey_self iid _ tr.itemTexts
  · intro ds
    exact applyDeltas_join tid iid h1 h2 ds turns tr htr

/-- Witness for C3: the spec's concrete three-delta run. -/
theorem delta_accumulation_order_witness :
    applyDeltas "u1" "i1" ["Hel", "lo ", "world"]
        [("u1", { threadId := "t1", turnId := "u1", lastAgentText := "",
                  lastNonEmptyText := "", itemTexts := [], hasTimeout := false })]
      = [("u1", { threadId := "t1", turnId := "u1",
                  lastAgentText := "Hello world",
                  lastNonEmptyText := "Hello world",
                  itemTexts := [("i1", "Hello world")],
                  hasTimeout := false })] :=
  (delta_accumulation_order
    [("u1", { threadId := "t1", turnId := "u1", lastAgentText := "",
              lastNonEmptyText := "", itemTexts := [], hasTimeout := false })]
    "u1" "i1" "x"
    { threadId := "t1", turnId := "u1", lastAgentText := "",
      lastNonEmptyText := "", itemTexts := [], hasTimeout := false }
    (by decide) (by decide) (by decide)).2.2

/-- C4: an `item/completed` notification acts only when the item's type is
"agentMessage"; it then overwrites — does not append to — the per-item text
for the item's id with the final text, and updates last-seen-agent-text and
last-non-empty-trimmed-text the same way a delta would; any other item type
leaves the registry unchanged. -/
theorem item_completed_overwrites (turns : Registry) (tid iid : String)
    (item : ItemInfo) (tr : TurnTracker)
    (h1 : tid.isEmpty = false) (htr : getKey tid turns = some tr)
    (hty : item.type = some "agentMessage") (hid : item.id = some iid)
    (hiid : iid.isEmpty = false) :
    (∃ tr' : TurnTracker,
      getKey tid
          (handleItemCompleted { turnId := some tid, item := some item } turns)
        = some tr'
      ∧ getKey iid tr'.itemTexts = some (item.text.getD "")
      ∧ tr'.lastAgentText = item.text.getD ""
      ∧ tr'.lastNonEmptyText =
          (if (jsTrim (item.text.getD "")).isEmpty then tr.lastNonEmptyText
           else jsTrim (item.text.getD "")))
    ∧ (∀ p : ItemCompletedPayload,
        p.item.bind ItemInfo.type ≠ some "agentMessage" →
        handleItemCompleted p turns = turns) := by
  constructor
  · have hstep :
        handleItemCompleted { turnId := some tid, item := some item } turns
          = setKey tid
              { tr with
                itemTexts := setKey iid (item.text.getD "") tr.itemTexts
                lastAgentText := item.text.getD ""
                lastNonEmptyText :=
                  if (jsTrim (item.text.getD "")).isEmpty then tr.lastNonEmptyText
                  else jsTrim (item.text.getD "") } turns := by
      simp [handleItemCompleted, truthy, h1, hty, htr, hid, hiid]
    refine ⟨{ tr with
        itemTexts := setKey iid (item.text.getD "") tr.itemTexts
        lastAgentText := item.text.getD ""
        lastNonEmptyText :=
          if (jsTrim (item.text.getD "")).isEmpty then tr.lastNonEmptyText
          else jsTrim (item.text.getD "") }, ?_, ?_, rfl, rfl⟩
    · rw [hstep]
      exact getKey_setKey_self tid _ turns
    · exact getKey_setKey_self iid _ tr.itemTexts
  · intro p hp
    simp [handleItemCompleted, hp]

/-- Witness for C4: a final text replaces a prior partial accumulation, and a
non-agentMessage `item/completed` is inert. -/
theorem item_completed_overwrites_witness :
    handleItemCompleted
        { turnId := some "u1",
          item := some { type := some "reasoning", id := some "i1",
                         text := some "thinking" } }
        [("u1", { threadId := "t1", turnId := "u1", lastAgentText := "par",
                  lastNonEmptyText := "par", itemTexts := [("i1", "par")],
                  hasTimeout := false })]
      = [("u1", { threadId := "t1", turnId := "u1", lastAgentText := "par",
                  lastNonEmptyText := "par", itemTexts := [("i1", "par")],
                  hasTimeout := false })] :=
  (item_completed_overwrites
    [("u1", { threadId := "t1", turnId := "u1", lastAgentText := "par",
              lastNonEmptyText := "par", itemTexts := [("i1", "par")],
              hasTimeout := false })]
    "u1" "i1" { type := some "agentMessage", id := some "i1", text := some "final" }
    { threadId := "t1", turnId := "u1", lastAgentText := "par",
      lastNonEmptyText := "par", itemTexts := [("i1", "par")],
      hasTimeout := false }
    (by decide) (by decide) rfl rfl (by decide)).2
    { turnId := some "u1",
      item := some { type := some "reasoning", id := some "i1",
                     text := some "thinking" } }
    (by decide)

end OpenClaw.Codex
